import Mathlib

/-!
Verification development for the `airetoolbackend` flow-engine backend.

The Python sources under `src/` are shallowly embedded below:

* JSON values exchanged with the model and stored in SQLite are embedded as
  the inductive `Json` (numbers as integers; the claims never inspect
  floating-point payloads).  Python's `json.loads`/`json.dumps` round trip is
  modelled by working at the level of `Json` values: a stored artifact is the
  value itself.
* `utils/database.py` (`Database`) becomes pure functions over a `Database`
  record holding the three SQLite tables (`configs`, `mock_data`, `messages`)
  as lists of rows in insertion order.
* `ws/socket_handler.py` (`SocketManager`) becomes pure functions over an
  association list from project id to the list of subscribed observers.
* `utils/openai_client.py` capabilities become functions of an `ApiResult`
  (the outcome of the OpenAI call combined with `json.loads` on its content);
  `create_default_page_config` is embedded in the `Except` monad because its
  Python body can raise `AttributeError`/`TypeError` on malformed descriptors.
* the step bodies of `flows/create_agent.py` / `flows/edit_agent.py` are
  embedded twice, at two granularities: concretely (for the steps whose data
  flow the claims inspect) and as "effect skeletons" (ordered lists of
  fallible actions) used to reason about notification/log traces and error
  propagation of whole runs of `app.execute_flow_with_new_db`.
-/

/-- JSON values (`json.loads` results).  Object fields are kept in insertion
order, as Python dicts do; numbers are modelled as integers. -/
inductive Json where
  | null : Json
  | bool (b : Bool) : Json
  | num (n : Int) : Json
  | str (s : String) : Json
  | arr (elems : List Json) : Json
  | obj (fields : List (String × Json)) : Json
deriving Repr

/-- First binding of key `k` in an association list: Python `dict.get(k)`
(dict keys are unique, so first match is the match). -/
def jlookup (fields : List (String × Json)) (k : String) : Option Json :=
  match fields with
  | [] => none
  | (k2, v) :: rest => if k2 = k then some v else jlookup rest k

/-- Python truthiness of a parsed-JSON value (`bool(x)`). -/
def jtruthy : Json → Bool
  | .null => false
  | .bool b => b
  | .num n => n ≠ 0
  | .str s => s ≠ ""
  | .arr l => !l.isEmpty
  | .obj l => !l.isEmpty

/-! ### `utils/database.py` -/

/-- One row of the `configs` table. -/
structure ConfigRow where
  project_id : String
  version : Nat
  config : Json
deriving Repr

/-- One row of the `mock_data` table (primary key `(project_id, resource_name)`). -/
structure MockRow where
  project_id : String
  resource_name : String
  data : Json
deriving Repr

/-- One row of the `messages` table; `content` holds the stored text, modelled
at the value level (for step logs, the serialized result dict). -/
structure MsgRow where
  project_id : String
  step : String
  msg_type : String
  content : Json
deriving Repr

/-- The SQLite state behind `Database`: the three tables, rows in insertion
order. -/
structure Database where
  configs : List ConfigRow := []
  mock_data : List MockRow := []
  messages : List MsgRow := []
deriving Repr

/-- `Database.get_max_version`: `SELECT MAX(version) FROM configs WHERE
project_id = ?`, with `result[0] or 0` turning SQL `NULL` (no rows) into 0. -/
def Database.get_max_version (db : Database) (project_id : String) : Nat :=
  db.configs.foldl (fun m r => if r.project_id = project_id then max m r.version else m) 0

/-- `Database.get_config`: fetch the config for `(project_id, version)`;
`json.loads(result[0]) if result else {}`. -/
def Database.get_config (db : Database) (project_id : String) (version : Nat) : Json :=
  match db.configs.find? (fun r => r.project_id = project_id ∧ r.version = version) with
  | some r => r.config
  | none => .obj []

/-- `Database.get_all_mock_data`: all `(resource_name, data)` pairs stored for
the project. -/
def Database.get_all_mock_data (db : Database) (project_id : String) : List (String × Json) :=
  (db.mock_data.filter (fun r => r.project_id = project_id)).map
    (fun r => (r.resource_name, r.data))

/-- `Database.save_config`: read `get_max_version`, insert a row with
`version = max + 1`. -/
def Database.save_config (db : Database) (project_id : String) (config_json : Json) : Database :=
  { db with configs :=
      db.configs ++ [⟨project_id, db.get_max_version project_id + 1, config_json⟩] }

/-- `Database.save_mock_data`: `INSERT OR REPLACE` keyed on
`(project_id, resource_name)` — any existing row for the key is deleted and
the new row inserted. -/
def Database.save_mock_data (db : Database) (project_id resource : String) (data : Json) :
    Database :=
  let kept := db.mock_data.filter
    (fun r => ¬(r.project_id = project_id ∧ r.resource_name = resource))
  { db with mock_data := kept ++ [⟨project_id, resource, data⟩] }

/-- `Database.save_message`: append one row to the `messages` table. -/
def Database.save_message (db : Database) (project_id step msg_type : String)
    (content : Json) : Database :=
  { db with messages := db.messages ++ [⟨project_id, step, msg_type, content⟩] }

/-! ### Successor tables and the sequencer loop (`app.execute_flow_with_new_db`) -/

/-- `flows/create_agent.py::get_next_step` (imported as `create_get_next` in
`app.py`); `steps.get` yields `None` both for `"write_files"` and for unknown
keys. -/
def create_get_next : String → Option String := fun current_step =>
  match current_step with
  | "analyze_intent" => some "generate_use_cases"
  | "generate_use_cases" => some "generate_page_configs"
  | "generate_page_configs" => some "generate_mock_data"
  | "generate_mock_data" => some "write_files"
  | "write_files" => none
  | _ => none

/-- `flows/edit_agent.py::get_next_step` (imported as `edit_get_next` in
`app.py`). -/
def edit_get_next : String → Option String := fun current_step =>
  match current_step with
  | "detect_edit_type" => some "load_current_state"
  | "load_current_state" => some "apply_patch"
  | "apply_patch" => some "regenerate_affected_data"
  | "regenerate_affected_data" => some "save_updates"
  | "save_updates" => none
  | _ => none

/-- The step-name iteration of the sequencer loop
(`while current_step: ...; current_step = get_next_step_func(current_step)`),
assuming every executed step returns normally.  `fuel` bounds the number of
iterations so the function is total; the loop itself stops exactly when the
successor function yields `none`. -/
def runSteps (next : String → Option String) : Option String → Nat → List String
  | none, _ => []
  | some _, 0 => []
  | some s, fuel + 1 => s :: runSteps next (next s) fuel

/-! ### Effect skeletons of the step bodies

For claims about notification/log traces and error propagation, each step
body is abstracted to the ordered list of its externally visible actions, as
they appear in `flows/create_agent.py` and `flows/edit_agent.py`.  Payloads
are dropped; what remains is which observer notifications and which log
writes happen, in which order, and which actions can raise.  Per the spec's
failure scope (failures "in steps 2–5": capability call / state mutation /
state notification / persistence), the initial `send_status` announcement is
modelled as infallible; every other action may raise. -/

/-- One action of a step body, in source order. -/
inductive Act where
  | statusA : Act
  | workA : Act
  | stateA : Act
  | completeA : Act
  | persistA : Act
  | logA : Act
deriving Repr, DecidableEq

/-- Observable events of a run: observer notifications (by the step label
used in the socket call) and appended step-log rows. -/
inductive Event where
  | status (step : String) : Event
  | stateN (step : String) : Event
  | complete : Event
  | error (step : String) : Event
  | log (step tag : String) : Event
deriving Repr, DecidableEq

/-- Events a successfully executed action emits.  `workA` (capability call +
`json.loads` + state mutation) and `persistA` (config / dataset writes) emit
no observer-visible event; `logA` appends a `(step, "success")` log row. -/
def actEvents (label : String) : Act → List Event
  | .statusA => [.status label]
  | .workA => []
  | .stateA => [.stateN label]
  | .completeA => [.complete]
  | .persistA => []
  | .logA => [.log label "success"]

/-- A step: the label its socket/log calls use, and its action list. -/
structure StepSpec where
  label : String
  acts : List Act
deriving Repr, DecidableEq

instance : Inhabited StepSpec := ⟨⟨"", []⟩⟩

/-- Decrement an intra-step injection index as one action completes. -/
def decInj : Option Nat → Option Nat
  | none => none
  | some n => some (n - 1)

/-- Execute one step body with an optional failure injection: `some i` makes
the `i`-th action raise (without emitting its event).  The surrounding
`try/except` then emits exactly one error notification labelled with the
step's label and re-raises (`Bool` result `false`). -/
def runActs (label : String) : List Act → Option Nat → List Event × Bool
  | [], _ => ([], true)
  | _ :: _, some 0 => ([.error label], false)
  | a :: rest, inj =>
    let r := runActs label rest (decInj inj)
    (actEvents label a ++ r.1, r.2)

/-- The create flow's step bodies, in successor-table order.  Note the first
step's notifications use the label `"analyze_user_intent"` although its
successor-table key is `"analyze_intent"`.  `write_files` sends no status
notification; its dataset-save loop is abstracted to a single `persistA`. -/
def create_flow_steps : List StepSpec :=
  [ ⟨"analyze_user_intent", [.statusA, .workA, .stateA, .logA]⟩,
    ⟨"generate_use_cases", [.statusA, .workA, .stateA, .logA]⟩,
    ⟨"generate_page_configs", [.statusA, .workA, .stateA, .logA]⟩,
    ⟨"generate_mock_data", [.statusA, .workA, .stateA, .logA]⟩,
    ⟨"write_files", [.persistA, .persistA, .completeA, .logA]⟩ ]

/-- The edit flow's step bodies, in successor-table order, parameterised by
the value of `needs_data_regeneration(state.modification_details)`.  Note:
`load_current_state` and `apply_patch` call no `db.save_message`;
`regenerate_affected_data` notifies under the label `"regenerate_data"`,
returns immediately (no actions) when the predicate is false, and never
logs; `save_updates` sends no status notification. -/
def edit_flow_steps (regen : Bool) : List StepSpec :=
  [ ⟨"detect_edit_type", [.statusA, .workA, .stateA, .logA]⟩,
    ⟨"load_current_state", [.statusA, .workA, .stateA]⟩,
    ⟨"apply_patch", [.statusA, .workA, .stateA]⟩,
    ⟨"regenerate_data", if regen then [.statusA, .workA, .stateA] else []⟩,
    ⟨"save_updates", [.persistA, .persistA, .completeA, .logA]⟩ ]

/-- Intra-step injection for the current step (flow-level injection
`some (k, i)` targets action `i` of step `k`). -/
def stepInj : Option (Nat × Nat) → Option Nat
  | some (0, a) => some a
  | _ => none

/-- Flow-level injection index after the current step completes. -/
def nextInj : Option (Nat × Nat) → Option (Nat × Nat)
  | some (k + 1, a) => some (k, a)
  | _ => none

/-- The sequencer loop of `app.execute_flow_with_new_db` over step bodies:
run each step in order; when a step raises, the loop's `except` handler
sends one final `"execute_flow"` error notification and re-raises, so no
further step runs. -/
def runFlow : List StepSpec → Option (Nat × Nat) → List Event
  | [], _ => []
  | st :: rest, inj =>
    let r := runActs st.label st.acts (stepInj inj)
    if r.2 then r.1 ++ runFlow rest (nextInj inj)
    else r.1 ++ [.error "execute_flow"]

/-! ### Versioned-store lemmas (claims C2 and C8) -/

/-- N sequential `save_config` calls for one project id, in argument order
(`c_1` first). -/
def save_config_list (db : Database) (pid : String) : List Json → Database
  | [] => db
  | c :: cs => save_config_list (db.save_config pid c) pid cs

/-! ### `ws/socket_handler.py` -/

/-- `SocketManager.active_connections`: project id → the set of connected
websockets.  Observers are opaque ids; the Python `Set[WebSocket]` is viewed
as a duplicate-free list (set insertion below is a no-op on members). -/
structure SocketManager where
  active_connections : List (String × List Nat) := []
deriving Repr

/-- Registry update of `SocketManager.connect`: create the project's entry if
absent, then add the websocket to its set. -/
def addConn : List (String × List Nat) → String → Nat → List (String × List Nat)
  | [], pid, ws => [(pid, [ws])]
  | (p, conns) :: rest, pid, ws =>
    if p = pid then (p, if ws ∈ conns then conns else conns ++ [ws]) :: rest
    else (p, conns) :: addConn rest pid ws

/-- `SocketManager.connect` (after `websocket.accept()`). -/
def SocketManager.connect (m : SocketManager) (ws : Nat) (project_id : String) : SocketManager :=
  ⟨addConn m.active_connections project_id ws⟩

/-- `SocketManager.send_message`: if the project id has an entry, send the
message to every connection in its set; otherwise do nothing.  The registry
is not modified; the returned list is the sequence of deliveries
`(connection, message)` performed. -/
def SocketManager.send_message (m : SocketManager) (project_id : String) (message : Json) :
    List (Nat × Json) :=
  match m.active_connections.lookup project_id with
  | none => []
  | some conns => conns.map (fun ws => (ws, message))

/-- `SocketManager.send_status`: delegates to `send_message` with a
`{"type": "status", "step": ..., "message": ...}` payload. -/
def SocketManager.send_status (m : SocketManager) (project_id step message : String) :
    List (Nat × Json) :=
  m.send_message project_id
    (.obj [("type", .str "status"), ("step", .str step), ("message", .str message)])

/-- `SocketManager.send_error`: delegates to `send_message` with a
`{"type": "error", "step": ..., "error": ...}` payload. -/
def SocketManager.send_error (m : SocketManager) (project_id step error : String) :
    List (Nat × Json) :=
  m.send_message project_id
    (.obj [("type", .str "error"), ("step", .str step), ("error", .str error)])

/-! ### `models/agent_state.py` -/

/-- The `mode` discriminator of `AgentState`. -/
inductive Mode where
  | create : Mode
  | edit : Mode
deriving Repr, DecidableEq

/-- `AgentState` (pydantic model).  Pydantic v1 does not validate attribute
assignment, so the optional string fields are modelled as optional JSON
values — steps store whatever the parsed capability result held. -/
structure AgentState where
  user_input : String
  project_id : String
  app_name : Option Json := none
  use_case_summary : Option Json := none
  entities : List Json := []
  pages : List Json := []
  page_configs : Json := .obj []
  mock_data : List (String × Json) := []
  current_config : Option Json := none
  mode : Mode := .create
  edit_target : Option Json := none
  modification_details : Option (List (String × Json)) := none
  updated_config : Option Json := none
  updated_data : Option (List (String × Json)) := none
deriving Repr

/-- Observer notifications with payloads, for the concretely embedded steps.
`complete` carries the two derived preview URLs of
`SocketManager.send_complete`. -/
inductive Notif where
  | status (project_id step message : String) : Notif
  | stateN (project_id step : String) (data : Json) : Notif
  | error (project_id step error : String) : Notif
  | complete (project_id message : String) (config : Json)
      (mockData : List (String × Json)) (appUrl previewApiUrl : String) : Notif
deriving Repr

/-! ### Concretely embedded step bodies -/

/-- `flows/edit_agent.py::needs_data_regeneration`: the modification's
`operation` value is one of the five schema-changing operation names (a
non-string or missing value is in no string set). -/
def schema_changing_ops : List String :=
  ["add_field", "remove_field", "modify_field_type", "add_entity", "remove_entity"]

/-- Whether the edit affects the data schema: see `schema_changing_ops`. -/
def needs_data_regeneration (modification_details : List (String × Json)) : Bool :=
  match jlookup modification_details "operation" with
  | some (.str s) => schema_changing_ops.contains s
  | _ => false

/-- `flows/create_agent.py::analyze_user_intent`, concretely.  `result_dict`
is the parsed capability result (`json.loads(analyze_intent(...))`).  The
first component is `none` when the step raises: `result_dict["app_name"]` or
`result_dict["use_case_summary"]` is a `KeyError` when absent, announced by
the `except` handler as an error notification before the re-raise.  On
success the step stores both values, sends the state notification and
appends the `(step, "success", result)` log row. -/
def analyze_user_intent (result_dict : List (String × Json)) (s : AgentState) (db : Database) :
    Option (AgentState × Database) × List Notif :=
  match jlookup result_dict "app_name", jlookup result_dict "use_case_summary" with
  | some an, some ucs =>
    (some ({ s with app_name := some an, use_case_summary := some ucs },
           db.save_message s.project_id "analyze_user_intent" "success" (.obj result_dict)),
     [.status s.project_id "analyze_user_intent" "Analyzing user intent...",
      .stateN s.project_id "analyze_user_intent" (.obj result_dict)])
  | _, _ =>
    (none,
     [.status s.project_id "analyze_user_intent" "Analyzing user intent...",
      .error s.project_id "analyze_user_intent" "KeyError"])

/-- `flows/edit_agent.py::regenerate_affected_data`, concretely.  `cap` is
the parsed result of the regeneration capability
(`json.loads(regenerate_mock_data(...))`).  When
`needs_data_regeneration(state.modification_details)` is false the step
returns the state unchanged at once — no notification and no database
write.  When true it announces status, stores the capability result in
`updated_data` and sends the state notification; it writes no log row.  A
`none` modification-details field makes `None.get("operation")` raise
`AttributeError` before any notification (first component `none`). -/
def regenerate_affected_data (cap : List (String × Json)) (s : AgentState) (db : Database) :
    Option (AgentState × Database) × List Notif :=
  match s.modification_details with
  | none => (none, [])
  | some md =>
    if needs_data_regeneration md then
      (some ({ s with updated_data := some cap }, db),
       [.status s.project_id "regenerate_data" "Updating mock data for schema changes...",
        .stateN s.project_id "regenerate_data" (.obj cap)])
    else
      (some (s, db), [])

/-- `flows/edit_agent.py::save_updates`, concretely (success path).  Saves
`updated_config` as a new version, saves each updated dataset only when
`state.updated_data` is truthy (neither `None` nor empty), sends the
completion notification carrying `state.updated_data or state.mock_data`,
and appends the `("save_updates", "success")` log row. -/
def save_updates (s : AgentState) (db : Database) : AgentState × Database × List Notif :=
  let db1 := db.save_config s.project_id (s.updated_config.getD .null)
  let db2 := match s.updated_data with
    | some ud => if ud.isEmpty then db1
        else ud.foldl (fun (d : Database) (p : String × Json) => d.save_mock_data s.project_id p.1 p.2) db1
    | none => db1
  let finalData := match s.updated_data with
    | some ud => if ud.isEmpty then s.mock_data else ud
    | none => s.mock_data
  let db3 := db2.save_message s.project_id "save_updates" "success"
    (.str "Updates saved successfully")
  (s, db3,
   [.complete s.project_id "Updates successfully applied" (s.updated_config.getD .null)
      finalData
      ("http://localhost:5174/?id=" ++ s.project_id)
      ("http://localhost:8000/project/preview/?id=" ++ s.project_id)])

/-- Python truthiness of the `Optional[Dict]` field `updated_data`
(`None` and `{}` are falsy). -/
def updatedDataTruthy : Option (List (String × Json)) → Bool
  | some l => !l.isEmpty
  | none => false

/-- Test fixture: a modification-details dict whose operation is not
schema-changing. -/
def mdUpdate : List (String × Json) := [("operation", .str "update")]

/-- Test fixture: a modification-details dict with a schema-changing
operation. -/
def mdAddField : List (String × Json) := [("operation", .str "add_field")]

/-- Test fixture: an edit state carrying `mdUpdate`. -/
def editSkipState : AgentState :=
  { user_input := "", project_id := "p", modification_details := some mdUpdate }

/-- Test fixture: an edit state carrying `mdAddField`. -/
def editRegenState : AgentState :=
  { user_input := "", project_id := "p", modification_details := some mdAddField }

/-- Test fixture: an edit state whose `updated_data` is present but empty,
with a non-empty prior dataset loaded in `mock_data`. -/
def editEmptyUpdState : AgentState :=
  { user_input := "", project_id := "p", updated_config := some (.obj []),
    updated_data := some [], mock_data := [("Task", .arr [.obj [("id", .num 1)]])] }

/-- Test fixture: an edit state with a truthy `updated_data`. -/
def editSavedState : AgentState :=
  { user_input := "", project_id := "p", updated_config := some (.obj [("v", .num 2)]),
    updated_data := some [("Task", .arr [])], mock_data := [] }

/-! ### `utils/openai_client.py` — generation capabilities

Each capability is a function of the outcome of the OpenAI chat call
combined with `json.loads` on its content (`ApiResult`): the call raised, or
the content was not valid JSON, or it parsed to a value.  A capability's
body is one `try` around everything with `except Exception` returning the
deterministic default, plus an inner `except json.JSONDecodeError` with the
same default, so the embedded functions return plain values — with the one
exception of `generate_page_configs`, whose fallback builder
`create_default_page_config` can itself raise (`AttributeError`/`TypeError`
on malformed entity/page descriptors), escaping even the `except Exception`
handler, which calls the builder again.  It is therefore embedded in
`Except`. -/

/-- Outcome of the OpenAI call + `json.loads` of its content. -/
inductive ApiResult where
  | apiError (msg : String) : ApiResult
  | unparsable : ApiResult
  | parsed (j : Json) : ApiResult
deriving Repr

/-- `analyze_intent`: on failure, `{"app_name": "Task App",
"use_case_summary": user_input}`. -/
def analyze_intent (user_input : String) (api : ApiResult) : Json :=
  match api with
  | .parsed j => j
  | _ => .obj [("app_name", .str "Task App"), ("use_case_summary", .str user_input)]

/-- The deterministic fallback of `generate_use_cases`. -/
def default_use_cases : Json :=
  .obj [("entities", .arr [
          .obj [("name", .str "Task"),
                ("fields", .arr [
                  .obj [("name", .str "title"), ("type", .str "string")],
                  .obj [("name", .str "description"), ("type", .str "string")],
                  .obj [("name", .str "status"), ("type", .str "select"),
                        ("options", .arr [.str "Todo", .str "In Progress", .str "Done"])]])]]),
        ("pages", .arr [
          .obj [("title", .str "Dashboard"), ("path", .str "/"), ("icon", .str "home"),
                ("purpose", .str "Main dashboard")],
          .obj [("title", .str "Tasks"), ("path", .str "/tasks"), ("icon", .str "list"),
                ("purpose", .str "Task management")]])]

/-- `generate_use_cases`: on failure, the fixed Task/Dashboard default. -/
def generate_use_cases (use_case_summary : String) (api : ApiResult) : Json :=
  match use_case_summary, api with
  | _, .parsed j => j
  | _, _ => default_use_cases

/-- `generate_mock_data`: on failure, `{"Task": []}`. -/
def generate_mock_data (entities : List Json) (api : ApiResult) : Json :=
  match entities, api with
  | _, .parsed j => j
  | _, _ => .obj [("Task", .arr [])]

/-- `detect_edit_intent`: on failure, a fixed component-update intent
echoing the user input. -/
def detect_edit_intent (user_input : String) (api : ApiResult) : Json :=
  match api with
  | .parsed j => j
  | _ => .obj [("edit_target", .str "component"), ("target_page", .str "Dashboard"),
               ("target_component", .str "main"), ("operation", .str "update"),
               ("modification_details", .obj [("description", .str user_input)])]

/-- `apply_edit_patch`: on failure, the unmodified current configuration. -/
def apply_edit_patch (current_config : Json) (edit_target : String)
    (modification_details : Json) (api : ApiResult) : Json :=
  match edit_target, modification_details, api with
  | _, _, .parsed j => j
  | _, _, _ => current_config

/-- `regenerate_mock_data`: on failure, the unmodified current mock data. -/
def regenerate_mock_data (updated_config : Json) (current_mock_data : Json)
    (modification_details : Json) (api : ApiResult) : Json :=
  match updated_config, modification_details, api with
  | _, _, .parsed j => j
  | _, _, _ => current_mock_data

/-! #### `create_default_page_config` and its Python-semantics helpers -/

/-- Python `obj.get(k, default)`: `AttributeError` unless `obj` is a dict. -/
def pyGet (j : Json) (k : String) (dflt : Json) : Except String Json :=
  match j with
  | .obj fs => .ok ((jlookup fs k).getD dflt)
  | _ => .error "AttributeError: get"

/-- A value a `str` method is called on: `AttributeError` unless a string. -/
def pyStr? (j : Json) : Except String String :=
  match j with
  | .str s => .ok s
  | _ => .error "AttributeError: str method"

/-- Python `s.strip(c)`: remove leading and trailing occurrences of `c`. -/
def pyStrip (s : String) (c : Char) : String :=
  String.mk (((s.toList.dropWhile (· = c)).reverse.dropWhile (· = c)).reverse)

/-- Character stream of Python `str.title()`: a letter directly after a
letter is lowercased, any other letter uppercased. -/
def pyTitleGo : Bool → List Char → List Char
  | _, [] => []
  | prevAlpha, c :: cs =>
    (if c.isAlpha then (if prevAlpha then c.toLower else c.toUpper) else c)
      :: pyTitleGo c.isAlpha cs

/-- Python `str.title()` (ASCII view). -/
def pyTitle (s : String) : String := String.mk (pyTitleGo false s.toList)

/-- Helper for the Python substring test: does the needle occur at any
suffix position? -/
def strContainsGo (needle : List Char) : List Char → Bool
  | [] => needle.isEmpty
  | c :: cs => needle.isPrefixOf (c :: cs) || strContainsGo needle cs

/-- Python substring test `needle in hay`. -/
def strContains (hay needle : String) : Bool :=
  strContainsGo needle.toList hay.toList

mutual
/-- Python `repr` of a parsed-JSON value (ASCII view), as `str()` renders
containers inside f-strings. -/
def pyRepr : Json → String
  | .null => "None"
  | .bool true => "True"
  | .bool false => "False"
  | .num n => toString n
  | .str s => "\x27" ++ s ++ "\x27"
  | .arr xs => "[" ++ String.intercalate ", " (pyReprList xs) ++ "]"
  | .obj fs => "\x7b" ++ String.intercalate ", " (pyReprFields fs) ++ "\x7d"

/-- `pyRepr` over array elements. -/
def pyReprList : List Json → List String
  | [] => []
  | x :: xs => pyRepr x :: pyReprList xs

/-- `pyRepr` over object fields. -/
def pyReprFields : List (String × Json) → List String
  | [] => []
  | (k, v) :: fs => ("\x27" ++ k ++ "\x27: " ++ pyRepr v) :: pyReprFields fs
end

/-- Python `str(x)` applied to a parsed-JSON value in an f-string. -/
def pyStrOf : Json → String
  | .str s => s
  | j => pyRepr j

/-- One DataTable column of the builder: `{"title": field.get("name",
"Field"), "dataIndex": field.get("name", "field"), "key": field.get("name",
"field")}`. -/
def columnOfField (field : Json) : Except String Json := do
  let t ← pyGet field "name" (.str "Field")
  let di ← pyGet field "name" (.str "field")
  let k ← pyGet field "name" (.str "field")
  pure (.obj [("title", t), ("dataIndex", di), ("key", k)])

/-- One form item of the builder; the label calls
`field.get("name", "Field").title()`, which raises on a non-string name. -/
def formItemOfField (field : Json) : Except String Json := do
  let n ← pyGet field "name" (.str "field")
  let lraw ← pyGet field "name" (.str "Field")
  let ls ← pyStr? lraw
  let ty ← pyGet field "type" (.str "string")
  pure (.obj [("name", n), ("label", .str (pyTitle ls)), ("type", ty)])

/-- The default DataTable column used when an entity has no usable field
list. -/
def defaultColumn : Json :=
  .obj [("title", .str "ID"), ("dataIndex", .str "id"), ("key", .str "id")]

/-- The default form item used when an entity has no usable field list. -/
def defaultFormItem : Json :=
  .obj [("name", .str "name"), ("label", .str "Name"), ("type", .str "string")]

/-- The DataTable component for an entity. -/
def dataTableOf (entity_name : String) (columns : List Json) : Json :=
  .obj [("type", .str "DataTable"), ("title", .str (entity_name ++ " List")),
        ("props", .obj [("dataSource", .str entity_name), ("columns", .arr columns),
                        ("pagination", .obj [("pageSize", .num 10)])])]

/-- The Form component for an entity. -/
def formOf (entity_name : String) (items : List Json) : Json :=
  .obj [("type", .str "Form"), ("title", .str ("Add " ++ entity_name)),
        ("props", .obj [("formItems", .arr items),
                        ("submitText", .str ("Add " ++ entity_name))])]

/-- The DataTable and Form appended for an entity matched to a page.
`fields = entity.get("fields", [])`; the guard `fields and
isinstance(fields, list)` sends anything but a non-empty list to the
default column/form item. -/
def entityComponents (entity : Json) (entity_name : String) : Except String (List Json) := do
  let fieldsJ ← pyGet entity "fields" (.arr [])
  match fieldsJ with
  | .arr (f :: fs) => do
    let cols ← ((f :: fs).take 4).mapM columnOfField
    let items ← (f :: fs).mapM formItemOfField
    pure [dataTableOf entity_name cols, formOf entity_name items]
  | _ =>
    pure [dataTableOf entity_name [defaultColumn], formOf entity_name [defaultFormItem]]

/-- The Chart component added to dashboard-like pages. -/
def activityChart : Json :=
  .obj [("type", .str "Chart"), ("title", .str "Activity Overview"),
        ("props", .obj [("chartType", .str "bar"),
          ("data", .obj [
            ("labels", .arr [.str "Mon", .str "Tue", .str "Wed", .str "Thu", .str "Fri"]),
            ("datasets", .arr [.obj [("label", .str "Activity"),
                                     ("data", .arr [.num 12, .num 19, .num 3, .num 5, .num 2])]])])])]

/-- The header zone: one MetricCard titled
`f"{page.get('title', 'Page')} Overview"`. -/
def headerZone (titleVal : Json) : Json :=
  .obj [("title", .str "Header"),
        ("components", .arr [.obj [("type", .str "MetricCard"),
          ("title", .str (pyStrOf titleVal ++ " Overview")),
          ("props", .obj [("metrics", .arr [
            .obj [("label", .str "Total Items"), ("value", .str "0")],
            .obj [("label", .str "Active Items"), ("value", .str "0")]])])]])]

/-- One page's configuration value: title, header zone, main zone with the
accumulated components. -/
def pageConfigOf (titleVal : Json) (mainComponents : List Json) : Json :=
  .obj [("title", titleVal),
        ("zones", .obj [("header", headerZone titleVal),
                        ("main", .obj [("title", .str "Main Content"),
                                       ("components", .arr mainComponents)])])]

/-- The components the entity loop appends for one page: for each entity
whose lowercased name occurs in the page's lowercased title or (lazily)
purpose, a DataTable and a Form.  Each access follows Python's evaluation
order, so a non-dict entity or non-string name/title/purpose raises. -/
def pageEntityComponents (entities : List Json) (page : Json) :
    Except String (List Json) :=
  entities.foldlM (fun acc entity => do
    let nameJ ← pyGet entity "name" (.str "")
    let nameS ← pyStr? nameJ
    let tJ ← pyGet page "title" (.str "")
    let tS ← pyStr? tJ
    if strContains tS.toLower nameS.toLower then do
      let comps ← entityComponents entity nameS
      pure (acc ++ comps)
    else do
      let pJ ← pyGet page "purpose" (.str "")
      let pS ← pyStr? pJ
      if strContains pS.toLower nameS.toLower then do
        let comps ← entityComponents entity nameS
        pure (acc ++ comps)
      else
        pure acc) []

/-- Processing of one page of the builder loop: compute the page id
(`page.get("path", "").strip("/") or page.get("title",
"").lower().replace(" ", "-")`, `continue` when empty — result `none`),
then build the page configuration with the dashboard chart and the entity
components. -/
def processPage (entities : List Json) (page : Json) :
    Except String (Option (String × Json)) := do
  let pathJ ← pyGet page "path" (.str "")
  let pathS ← pyStr? pathJ
  let stripped := pyStrip pathS '/'
  let page_id ← (if stripped ≠ "" then pure stripped else do
    let tJ ← pyGet page "title" (.str "")
    let tS ← pyStr? tJ
    pure (tS.toLower.replace " " "-"))
  if page_id = "" then
    pure none
  else do
    let titleVal ← pyGet page "title" (.str "Page")
    let tJ2 ← pyGet page "title" (.str "")
    let tS2 ← pyStr? tJ2
    let isDashTitle := strContains tS2.toLower "dashboard"
    let pathJ2 ← pyGet page "path" (.str "")
    let isDash := isDashTitle || (match pathJ2 with | .str s => s = "/" | _ => false)
    let chartComps := if isDash then [activityChart] else []
    let entityComps ← pageEntityComponents entities page
    pure (some (page_id, pageConfigOf titleVal (chartComps ++ entityComps)))

/-- The two pages substituted when the caller supplies none. -/
def default_pages : List Json :=
  [.obj [("title", .str "Dashboard"), ("path", .str "/"), ("icon", .str "home"),
         ("purpose", .str "Main dashboard")],
   .obj [("title", .str "Tasks"), ("path", .str "/tasks"), ("icon", .str "list"),
         ("purpose", .str "Task management")]]

/-- Python dict assignment `d[k] = v`: replace in place, else append. -/
def upsert (l : List (String × Json)) (k : String) (v : Json) : List (String × Json) :=
  match l with
  | [] => [(k, v)]
  | (k2, v2) :: rest => if k2 = k then (k2, v) :: rest else (k2, v2) :: upsert rest k v

/-- `create_default_page_config`: the deterministic local fallback that
synthesizes `{"pages": {...}}` from the entity/page descriptors already in
state.  It can raise (`Except.error`) on malformed descriptors. -/
def create_default_page_config (entities pages : List Json) : Except String Json := do
  let pagesEff := if pages.isEmpty then default_pages else pages
  let pagesMap ← pagesEff.foldlM (fun acc page => do
    match ← processPage entities page with
    | none => pure acc
    | some (pid, cfg) => pure (upsert acc pid cfg)) ([] : List (String × Json))
  pure (.obj [("pages", .obj pagesMap)])

/-- The check `generate_page_configs` runs on a parsed result: `not
json_data.get("pages") or len(json_data.get("pages", {})) == 0` sends falsy
or empty values to the fallback, and a truthy unsized value (number, true)
raises `TypeError` at `len`, caught by the outer handler — so the parsed
content is kept exactly for a non-empty string, array or object. -/
def pagesAccepted : Option Json → Bool
  | some (.arr (_ :: _)) => true
  | some (.obj (_ :: _)) => true
  | some (.str s) => s ≠ ""
  | _ => false

/-- `generate_page_configs`: keeps a parsed result with an acceptable
`"pages"` value, and otherwise falls back to
`create_default_page_config(entities, pages)` (also when the parsed value
is not a dict: `json_data.get` raises `AttributeError`, the outer handler
catches it and calls the builder).  A raise out of the builder escapes the
function: the `except Exception` handler calls the builder again. -/
def generate_page_configs (entities pages : List Json) (api : ApiResult) :
    Except String Json :=
  match api with
  | .parsed j =>
    match j with
    | .obj fs =>
      if pagesAccepted (jlookup fs "pages") then .ok j
      else create_default_page_config entities pages
    | _ => create_default_page_config entities pages
  | _ => create_default_page_config entities pages

/-- A key that, if present in the dict, must hold a string (it gets a string
method called on it or participates in a substring test). -/
def strIfPresent (fs : List (String × Json)) (k : String) : Bool :=
  match jlookup fs k with
  | some (.str _) => true
  | none => true
  | _ => false

/-- A field descriptor the builder can process without raising: a dict
whose `name`, when present, is a string. -/
def wfField (f : Json) : Bool :=
  match f with
  | .obj fs => strIfPresent fs "name"
  | _ => false

/-- An entity descriptor the builder can process without raising. -/
def wfEntity (e : Json) : Bool :=
  match e with
  | .obj fs =>
    strIfPresent fs "name" &&
    (match jlookup fs "fields" with
     | some (.arr l) => if l.isEmpty then true else l.all wfField
     | _ => true)
  | _ => false

/-- A page descriptor the builder can process without raising. -/
def wfPage (p : Json) : Bool :=
  match p with
  | .obj fs => strIfPresent fs "path" && strIfPresent fs "title" && strIfPresent fs "purpose"
  | _ => false

/-- Well-formed entity and page descriptors (what the builder's accessors
assume). -/
def wellFormedDescriptors (entities pages : List Json) : Bool :=
  entities.all wfEntity && pages.all wfPage

/-! ### Theorems -/

set_option maxRecDepth 4000

set_option synthInstance.maxSize 1000

/-- Unfolding lemma: with no current step the loop body never runs. -/
theorem runSteps_none (next : String → Option String) (fuel : Nat) :
    runSteps next none fuel = [] := by
  cases fuel <;> rfl

/-- Unfolding lemma: one iteration of the sequencer loop. -/
theorem runSteps_succ (next : String → Option String) (s : String) (f : Nat) :
    runSteps next (some s) (f + 1) = s :: runSteps next (next s) f := rfl

/-- C1: from the declared start step, the sequencer loop visits exactly the
five steps of each flow's successor table, once each, in table order, for
any sufficient fuel bound, and the loop terminates because the successor
function returns `none` at the terminal step. -/
theorem sequencer_visits_each_step_once :
    (∀ n : Nat,
      runSteps create_get_next (some "analyze_intent") (n + 5) =
        ["analyze_intent", "generate_use_cases", "generate_page_configs",
         "generate_mock_data", "write_files"]) ∧
    (∀ n : Nat,
      runSteps edit_get_next (some "detect_edit_type") (n + 5) =
        ["detect_edit_type", "load_current_state", "apply_patch",
         "regenerate_affected_data", "save_updates"]) ∧
    create_get_next "write_files" = none ∧
    edit_get_next "save_updates" = none := by
  refine ⟨fun n => ?_, fun n => ?_, rfl, rfl⟩ <;>
    simp [runSteps_succ, runSteps_none, create_get_next, edit_get_next]

/-- C3 counterexample: the claim says a failing step publishes **no** state
notification, but a step whose `db.save_message` call raises (action index 3
of the first create step: the log persist, which runs after `send_state`)
has already published its state notification; the trace still holds exactly
one error notification for the step. -/
theorem failing_step_state_notification_cex :
    Event.stateN "analyze_user_intent" ∈ runFlow create_flow_steps (some (0, 3)) ∧
    (runFlow create_flow_steps (some (0, 3))).count (.error "analyze_user_intent") = 1 := by
  decide

/-- C3 (amended): for every step of either flow (both values of the edit
flow's regeneration predicate) and every failing fallible action of its body
(the capability call / state mutation, the state notification, persistence,
or the log write — the initial status announcement is outside the spec's
failure scope), the run publishes exactly one error notification for that
step, re-raises so that the run halts (the final event is the sequencer
wrapper's `"execute_flow"` error), publishes no status, state or log event
of any later step of the successor table, and publishes a state
notification for the failing step if and only if the failure occurred in an
action after the `send_state` call (i.e. in the log persist). -/
theorem step_failure_halts_run :
    (∀ flow ∈ [create_flow_steps, edit_flow_steps true, edit_flow_steps false],
     ∀ k < flow.length, ∀ a < (flow.getD k default).acts.length,
      (flow.getD k default).acts.getD a Act.statusA ≠ Act.statusA →
      (runFlow flow (some (k, a))).count (Event.error (flow.getD k default).label) = 1) ∧
    (∀ flow ∈ [create_flow_steps, edit_flow_steps true, edit_flow_steps false],
     ∀ k < flow.length, ∀ a < (flow.getD k default).acts.length,
      (flow.getD k default).acts.getD a Act.statusA ≠ Act.statusA →
      (runFlow flow (some (k, a))).getLast? = some (Event.error "execute_flow")) ∧
    (∀ flow ∈ [create_flow_steps, edit_flow_steps true, edit_flow_steps false],
     ∀ k < flow.length, ∀ a < (flow.getD k default).acts.length,
      (flow.getD k default).acts.getD a Act.statusA ≠ Act.statusA →
      (Event.stateN (flow.getD k default).label ∈ runFlow flow (some (k, a)) ↔
         Act.stateA ∈ List.take a (flow.getD k default).acts)) ∧
    (∀ flow ∈ [create_flow_steps, edit_flow_steps true, edit_flow_steps false],
     ∀ k < flow.length, ∀ a < (flow.getD k default).acts.length,
      (flow.getD k default).acts.getD a Act.statusA ≠ Act.statusA →
      ∀ j < flow.length, k < j →
        Event.status (flow.getD j default).label ∉ runFlow flow (some (k, a)) ∧
        Event.stateN (flow.getD j default).label ∉ runFlow flow (some (k, a)) ∧
        Event.log (flow.getD j default).label "success" ∉ runFlow flow (some (k, a))) := by
  refine ⟨?_, ?_, ?_, ?_⟩ <;> decide

/-- Witness for `step_failure_halts_run`: a failure injected into the state
notification (action 2) of `generate_use_cases` (step 1 of the create flow)
yields one error notification for it, halts the run, and no status
notification of `generate_page_configs` (step 2) is observed. -/
theorem step_failure_halts_run_witness :
    (runFlow create_flow_steps (some (1, 2))).count (Event.error "generate_use_cases") = 1 ∧
    (runFlow create_flow_steps (some (1, 2))).getLast? = some (Event.error "execute_flow") ∧
    Event.status "generate_page_configs" ∉ runFlow create_flow_steps (some (1, 2)) := by
  have h := step_failure_halts_run
  refine ⟨h.1 create_flow_steps (by decide) 1 (by decide) 2 (by decide) (by decide),
          h.2.1 create_flow_steps (by decide) 1 (by decide) 2 (by decide) (by decide),
          (h.2.2.2 create_flow_steps (by decide) 1 (by decide) 2 (by decide) (by decide) 2
            (by decide) (by decide)).1⟩

/-- C5 counterexample: `load_current_state` completes successfully on an
ordinary edit run (its status and state notifications are in the trace),
yet no step-log row is written for it — its body contains no
`db.save_message` call. -/
theorem load_current_state_no_log_cex :
    Event.stateN "load_current_state" ∈ runFlow (edit_flow_steps true) none ∧
    Event.log "load_current_state" "success" ∉ runFlow (edit_flow_steps true) none := by
  decide

/-- C5 (amended): the full event traces of successful runs.  Every
create-flow step, and of the edit flow only `detect_edit_type` and
`save_updates`, persist a `(step, "success")` log entry before returning
(the log event is the last event of its step's block); `load_current_state`,
`apply_patch` and `regenerate_affected_data` persist no log entry at all. -/
theorem successful_run_log_trace :
    runFlow create_flow_steps none =
      [.status "analyze_user_intent", .stateN "analyze_user_intent",
       .log "analyze_user_intent" "success",
       .status "generate_use_cases", .stateN "generate_use_cases",
       .log "generate_use_cases" "success",
       .status "generate_page_configs", .stateN "generate_page_configs",
       .log "generate_page_configs" "success",
       .status "generate_mock_data", .stateN "generate_mock_data",
       .log "generate_mock_data" "success",
       .complete, .log "write_files" "success"] ∧
    runFlow (edit_flow_steps true) none =
      [.status "detect_edit_type", .stateN "detect_edit_type",
       .log "detect_edit_type" "success",
       .status "load_current_state", .stateN "load_current_state",
       .status "apply_patch", .stateN "apply_patch",
       .status "regenerate_data", .stateN "regenerate_data",
       .complete, .log "save_updates" "success"] ∧
    runFlow (edit_flow_steps false) none =
      [.status "detect_edit_type", .stateN "detect_edit_type",
       .log "detect_edit_type" "success",
       .status "load_current_state", .stateN "load_current_state",
       .status "apply_patch", .stateN "apply_patch",
       .complete, .log "save_updates" "success"] := by
  refine ⟨?_, ?_, ?_⟩ <;> decide

/-- The accumulator only grows along `get_max_version`'s fold. -/
theorem foldl_max_ge_acc (l : List ConfigRow) (pid : String) (acc : Nat) :
    acc ≤ l.foldl (fun m r => if r.project_id = pid then max m r.version else m) acc := by
  induction l generalizing acc with
  | nil => exact Nat.le_refl _
  | cons x t ih =>
    refine Nat.le_trans ?_ (ih _)
    by_cases hx : x.project_id = pid <;> simp [hx]

/-- Every stored version of a project is bounded by `get_max_version`'s fold. -/
theorem foldl_max_ge_mem (l : List ConfigRow) (pid : String) (acc : Nat) (r : ConfigRow)
    (hr : r ∈ l) (hp : r.project_id = pid) :
    r.version ≤ l.foldl (fun m r => if r.project_id = pid then max m r.version else m) acc := by
  induction l generalizing acc with
  | nil => cases hr
  | cons x t ih =>
    rcases List.mem_cons.mp hr with h | h
    · subst h
      refine Nat.le_trans ?_ (foldl_max_ge_acc t pid _)
      simp [hp]
    · exact ih _ h

/-- Every config row of a project has version at most
`get_max_version` — the fold really computes an upper bound. -/
theorem version_le_get_max_version (db : Database) (pid : String) (r : ConfigRow)
    (hr : r ∈ db.configs) (hp : r.project_id = pid) :
    r.version ≤ db.get_max_version pid :=
  foldl_max_ge_mem db.configs pid 0 r hr hp

/-- `save_config` bumps `get_max_version` by exactly one. -/
theorem get_max_version_save (db : Database) (pid : String) (c : Json) :
    (db.save_config pid c).get_max_version pid = db.get_max_version pid + 1 := by
  unfold Database.save_config Database.get_max_version
  simp [List.foldl_append]

/-- Reading any version other than the newly assigned one is unaffected by
`save_config`. -/
theorem get_config_save_ne (db : Database) (pid : String) (c : Json) (v : Nat)
    (h : v ≠ db.get_max_version pid + 1) :
    (db.save_config pid c).get_config pid v = db.get_config pid v := by
  unfold Database.save_config Database.get_config
  rw [List.find?_append]
  have hnew : List.find? (fun r => decide (r.project_id = pid ∧ r.version = v))
      ([⟨pid, db.get_max_version pid + 1, c⟩] : List ConfigRow) = none := by
    refine List.find?_eq_none.mpr fun r hr => ?_
    simp only [List.mem_singleton] at hr
    subst hr
    simp only [decide_eq_true_eq]
    rintro ⟨-, hv⟩
    omega
  rw [hnew, Option.or_none]

/-- Reading back the version just written returns the config just saved. -/
theorem get_config_save_same (db : Database) (pid : String) (c : Json) :
    (db.save_config pid c).get_config pid (db.get_max_version pid + 1) = c := by
  unfold Database.save_config Database.get_config
  rw [List.find?_append]
  have hold : List.find?
      (fun r => decide (r.project_id = pid ∧ r.version = db.get_max_version pid + 1))
      db.configs = none := by
    refine List.find?_eq_none.mpr fun r hr => ?_
    simp only [decide_eq_true_eq]
    rintro ⟨hp, hv⟩
    have := version_le_get_max_version db pid r hr hp
    omega
  rw [hold, Option.none_or]
  simp [List.find?]

/-- Versions at or below the current maximum are untouched by any sequence of
later `save_config` calls. -/
theorem get_config_save_list_le (cs : List Json) (db : Database) (pid : String) (v : Nat)
    (hv : v ≤ db.get_max_version pid) :
    (save_config_list db pid cs).get_config pid v = db.get_config pid v := by
  induction cs generalizing db with
  | nil => rfl
  | cons c t ih =>
    rw [save_config_list]
    rw [ih (db.save_config pid c) (by rw [get_max_version_save]; omega)]
    exact get_config_save_ne db pid c v (by omega)

/-- General shape of C2: from any starting store, N sequential saves assign
the N versions just above the starting maximum, in order, each retrievable
unchanged. -/
theorem save_config_list_spec (cs : List Json) (db : Database) (pid : String) :
    (save_config_list db pid cs).get_max_version pid
        = db.get_max_version pid + cs.length ∧
    ∀ i (hi : i < cs.length),
      (save_config_list db pid cs).get_config pid (db.get_max_version pid + i + 1)
        = cs.get ⟨i, hi⟩ := by
  induction cs generalizing db with
  | nil => simp [save_config_list]
  | cons c t ih =>
    obtain ⟨ihmax, ihget⟩ := ih (db.save_config pid c)
    constructor
    · rw [save_config_list, ihmax, get_max_version_save]
      simp [List.length_cons]
      omega
    · intro i hi
      match i with
      | 0 =>
        rw [save_config_list]
        rw [get_config_save_list_le t (db.save_config pid c) pid _
          (by rw [get_max_version_save])]
        exact get_config_save_same db pid c
      | Nat.succ j =>
        have hj : j < t.length := by simpa [List.length_cons] using hi
        have := ihget j hj
        rw [get_max_version_save] at this
        rw [save_config_list]
        have harith : db.get_max_version pid + (j + 1) + 1
            = db.get_max_version pid + 1 + j + 1 := by omega
        rw [harith]
        exact this

/-- C2: for every flow identifier with no prior configuration, N sequential
`save_config` calls with configs `c_1 .. c_N` assign versions `1 .. N` in
order; afterwards `get_config(flow_id, i)` returns `c_i` unchanged for each
`i`, and `get_max_version(flow_id) = N`. -/
theorem save_config_append_only_increasing (pid : String) (cs : List Json) (db : Database)
    (h : db.get_max_version pid = 0) :
    (save_config_list db pid cs).get_max_version pid = cs.length ∧
    ∀ i (hi : i < cs.length),
      (save_config_list db pid cs).get_config pid (i + 1) = cs.get ⟨i, hi⟩ := by
  obtain ⟨h1, h2⟩ := save_config_list_spec cs db pid
  rw [h] at h1
  refine ⟨by simpa using h1, fun i hi => ?_⟩
  have := h2 i hi
  rw [h] at this
  simpa using this

/-- Witness for `save_config_append_only_increasing`: two saves on a fresh
store yield versions 1 and 2, each retrievable unchanged. -/
theorem save_config_append_only_increasing_witness :
    (save_config_list {} "p" [Json.num 1, Json.num 2]).get_max_version "p" = 2 ∧
    (save_config_list {} "p" [Json.num 1, Json.num 2]).get_config "p" 1 = Json.num 1 ∧
    (save_config_list {} "p" [Json.num 1, Json.num 2]).get_config "p" 2 = Json.num 2 := by
  have h := save_config_append_only_increasing "p" [Json.num 1, Json.num 2] {} rfl
  exact ⟨h.1, h.2 0 (by decide), h.2 1 (by decide)⟩

/-- An accumulator passes through `get_max_version`'s fold unchanged when no
row belongs to the project. -/
theorem foldl_max_no_match (l : List ConfigRow) (pid : String) (acc : Nat)
    (h : ∀ r ∈ l, r.project_id ≠ pid) :
    l.foldl (fun m r => if r.project_id = pid then max m r.version else m) acc = acc := by
  induction l generalizing acc with
  | nil => rfl
  | cons x t ih =>
    have hx : x.project_id ≠ pid := h x (List.mem_cons_self _ _)
    simp only [List.foldl_cons, if_neg hx]
    exact ih _ (fun r hr => h r (List.mem_cons_of_mem _ hr))

/-- C8: `get_max_version` returns 0 for a flow identifier with no saved
configuration row, and `get_config` returns the empty artifact `{}` for a
`(flow identifier, version)` pair with no stored row. -/
theorem missing_rows_read_as_empty (db : Database) (pid : String) (v : Nat) :
    ((∀ r ∈ db.configs, r.project_id ≠ pid) → db.get_max_version pid = 0) ∧
    ((∀ r ∈ db.configs, ¬(r.project_id = pid ∧ r.version = v)) →
      db.get_config pid v = .obj []) := by
  constructor
  · intro h
    exact foldl_max_no_match db.configs pid 0 h
  · intro h
    unfold Database.get_config
    rw [List.find?_eq_none.mpr (fun r hr => by simpa using h r hr)]

/-- Witness for `missing_rows_read_as_empty`: a store holding only another
project's config row reads as empty for project `"p"`. -/
theorem missing_rows_read_as_empty_witness :
    Database.get_max_version ⟨[⟨"q", 1, Json.num 7⟩], [], []⟩ "p" = 0 ∧
    Database.get_config ⟨[⟨"q", 1, Json.num 7⟩], [], []⟩ "p" 1 = .obj [] := by
  have h := missing_rows_read_as_empty ⟨[⟨"q", 1, Json.num 7⟩], [], []⟩ "p" 1
  refine ⟨h.1 ?_, h.2 ?_⟩ <;>
  · intro r hr
    simp only [List.mem_singleton] at hr
    subst hr
    simp

/-- Adding a connection preserves the registry invariant that every
project's connection set is duplicate-free. -/
theorem addConn_nodup (l : List (String × List Nat)) (pid : String) (ws : Nat)
    (h : ∀ e ∈ l, e.2.Nodup) : ∀ e ∈ addConn l pid ws, e.2.Nodup := by
  induction l with
  | nil =>
    intro e he
    simp only [addConn, List.mem_singleton] at he
    subst he
    simp
  | cons x t ih =>
    obtain ⟨p, conns⟩ := x
    intro e he
    by_cases hp : p = pid
    · simp only [addConn, if_pos hp, List.mem_cons] at he
      rcases he with he | he
      · subst he
        have hc : conns.Nodup := h (p, conns) (List.mem_cons_self _ _)
        by_cases hm : ws ∈ conns
        · simpa [hm] using hc
        · simp only [hm, if_neg]
          simp [List.nodup_append, hc, hm]
      · exact h e (List.mem_cons_of_mem _ he)
    · simp only [addConn, if_neg hp, List.mem_cons] at he
      rcases he with he | he
      · subst he
        exact h (p, conns) (List.mem_cons_self _ _)
      · exact ih (fun e he' => h e (List.mem_cons_of_mem _ he')) e he

/-- C9: publishing to a flow identifier with no subscribed observers returns
normally and performs no delivery; with subscribers, the message is
delivered once to each currently subscribed observer (the registry keeps
each project's set duplicate-free, an invariant `connect` preserves).  The
quantified `msg` covers `send_status`, `send_state`, `send_error` and
`send_complete`, which all delegate to `send_message` with a pure payload. -/
theorem publish_fanout (m : SocketManager) (pid : String) (msg : Json) (ws : Nat) :
    (m.active_connections.lookup pid = none → m.send_message pid msg = []) ∧
    (∀ conns, m.active_connections.lookup pid = some conns →
      m.send_message pid msg = conns.map (fun w => (w, msg)) ∧
      (conns.Nodup → ∀ w ∈ conns,
        ((m.send_message pid msg).map Prod.fst).count w = 1)) ∧
    ((∀ e ∈ m.active_connections, e.2.Nodup) →
      ∀ e ∈ (m.connect ws pid).active_connections, e.2.Nodup) := by
  refine ⟨?_, ?_, ?_⟩
  · intro h
    simp [SocketManager.send_message, h]
  · intro conns h
    refine ⟨by simp [SocketManager.send_message, h], fun hnd w hw => ?_⟩
    simp only [SocketManager.send_message, h, List.map_map]
    have : (conns.map (Prod.fst ∘ fun w => (w, msg))) = conns := List.map_id conns
    rw [this]
    exact List.count_eq_one_of_mem hnd hw
  · exact fun h => addConn_nodup _ _ _ h

/-- Witness for `publish_fanout`: with observers 1 and 2 subscribed to
`"p"`, a publish for `"q"` delivers nothing and a publish for `"p"`
delivers once to each of 1 and 2. -/
theorem publish_fanout_witness :
    SocketManager.send_message ⟨[("p", [1, 2])]⟩ "q" (.str "m") = [] ∧
    SocketManager.send_message ⟨[("p", [1, 2])]⟩ "p" (.str "m")
      = [(1, .str "m"), (2, .str "m")] ∧
    ((SocketManager.send_message ⟨[("p", [1, 2])]⟩ "p" (.str "m")).map Prod.fst).count 1 = 1 := by
  have hq := publish_fanout ⟨[("p", [1, 2])]⟩ "q" (.str "m") 0
  have hp := publish_fanout ⟨[("p", [1, 2])]⟩ "p" (.str "m") 0
  exact ⟨hq.1 rfl, (hp.2.1 [1, 2] rfl).1,
         (hp.2.1 [1, 2] rfl).2 (by decide) 1 (by decide)⟩

/-- C10: when the intent-analysis step succeeds (both keys present in the
parsed capability result), it stores the two values in `app_name` and
`use_case_summary` and every other field of the state it returns is the one
it was given: `user_input`, `project_id`, `mode`, `entities`, `pages`,
`page_configs`, `mock_data`, `current_config`, `edit_target`,
`modification_details`, `updated_config` and `updated_data` are unchanged. -/
theorem analyze_intent_frame_effect (rd : List (String × Json)) (s : AgentState)
    (db : Database) (an ucs : Json)
    (h1 : jlookup rd "app_name" = some an)
    (h2 : jlookup rd "use_case_summary" = some ucs) :
    (analyze_user_intent rd s db).1 =
      some ({ s with app_name := some an, use_case_summary := some ucs },
            db.save_message s.project_id "analyze_user_intent" "success" (.obj rd)) ∧
    ∀ s' dbr, (analyze_user_intent rd s db).1 = some (s', dbr) →
      s'.app_name = some an ∧ s'.use_case_summary = some ucs ∧
      s'.user_input = s.user_input ∧ s'.project_id = s.project_id ∧ s'.mode = s.mode ∧
      s'.entities = s.entities ∧ s'.pages = s.pages ∧ s'.page_configs = s.page_configs ∧
      s'.mock_data = s.mock_data ∧ s'.current_config = s.current_config ∧
      s'.edit_target = s.edit_target ∧ s'.modification_details = s.modification_details ∧
      s'.updated_config = s.updated_config ∧ s'.updated_data = s.updated_data := by
  have heq : (analyze_user_intent rd s db).1 =
      some ({ s with app_name := some an, use_case_summary := some ucs },
            db.save_message s.project_id "analyze_user_intent" "success" (.obj rd)) := by
    simp [analyze_user_intent, h1, h2]
  refine ⟨heq, fun s' dbr h => ?_⟩
  rw [heq] at h
  have hpair := Option.some.inj h
  have hs : ({ s with app_name := some an, use_case_summary := some ucs } : AgentState) = s' :=
    congrArg Prod.fst hpair
  subst hs
  exact ⟨rfl, rfl, rfl, rfl, rfl, rfl, rfl, rfl, rfl, rfl, rfl, rfl, rfl, rfl⟩

/-- Witness for `analyze_intent_frame_effect`: a concrete successful
intent-analysis step mutates exactly the two intent fields. -/
theorem analyze_intent_frame_effect_witness :
    (analyze_user_intent [("app_name", Json.str "Task App"), ("use_case_summary", Json.str "t")]
        { user_input := "u", project_id := "p" } {}).1 =
      some ({ user_input := "u", project_id := "p", app_name := some (.str "Task App"),
              use_case_summary := some (.str "t") },
            Database.save_message {} "p" "analyze_user_intent" "success"
              (.obj [("app_name", .str "Task App"), ("use_case_summary", .str "t")])) :=
  (analyze_intent_frame_effect
    [("app_name", Json.str "Task App"), ("use_case_summary", Json.str "t")]
    { user_input := "u", project_id := "p" } {} (.str "Task App") (.str "t") rfl rfl).1

/-- C4: `regenerate_affected_data` with a present modification-details dict:
when the `operation` value is not schema-changing the step returns at once
with the state and the database (hence the step log) unchanged and no
notification; when it is schema-changing, the step announces status,
invokes the regeneration capability, stores its parsed result in
`updated_data`, sends the state notification — and still writes nothing to
the database. -/
theorem regenerate_conditional_skip (cap : List (String × Json)) (s : AgentState)
    (db : Database) (md : List (String × Json)) (h : s.modification_details = some md) :
    (needs_data_regeneration md = false →
      regenerate_affected_data cap s db = (some (s, db), [])) ∧
    (needs_data_regeneration md = true →
      regenerate_affected_data cap s db =
        (some ({ s with updated_data := some cap }, db),
         [.status s.project_id "regenerate_data" "Updating mock data for schema changes...",
          .stateN s.project_id "regenerate_data" (.obj cap)])) := by
  constructor
  · intro hneg
    simp [regenerate_affected_data, h, hneg]
  · intro hpos
    simp [regenerate_affected_data, h, hpos]

/-- Witness for `regenerate_conditional_skip`: operation `"update"` (not
schema-changing) skips with everything unchanged; operation `"add_field"`
stores the capability result in `updated_data`. -/
theorem regenerate_conditional_skip_witness :
    regenerate_affected_data [] editSkipState {} = (some (editSkipState, {}), []) ∧
    regenerate_affected_data [("Task", Json.arr [])] editRegenState {} =
      (some ({ editRegenState with updated_data := some [("Task", Json.arr [])] }, {}),
       [.status "p" "regenerate_data" "Updating mock data for schema changes...",
        .stateN "p" "regenerate_data" (.obj [("Task", Json.arr [])])]) := by
  constructor
  · exact (regenerate_conditional_skip [] editSkipState {} mdUpdate rfl).1 rfl
  · exact (regenerate_conditional_skip [("Task", Json.arr [])] editRegenState {} mdAddField rfl).2 rfl

/-- `save_config` leaves the `mock_data` table unchanged. -/
theorem mock_data_save_config (db : Database) (pid : String) (c : Json) :
    (db.save_config pid c).mock_data = db.mock_data := rfl

/-- `save_message` leaves the `mock_data` table unchanged. -/
theorem mock_data_save_message (db : Database) (pid step ty : String) (c : Json) :
    (db.save_message pid step ty c).mock_data = db.mock_data := rfl

/-- `save_mock_data` leaves the `configs` table unchanged. -/
theorem configs_save_mock_data (db : Database) (pid res : String) (d : Json) :
    (db.save_mock_data pid res d).configs = db.configs := rfl

/-- `save_message` leaves the `configs` table unchanged. -/
theorem configs_save_message (db : Database) (pid step ty : String) (c : Json) :
    (db.save_message pid step ty c).configs = db.configs := rfl

/-- A fold of dataset saves leaves the `configs` table unchanged. -/
theorem configs_fold_save_mock (ud : List (String × Json)) (db : Database) (pid : String) :
    (ud.foldl (fun (d : Database) (q : String × Json) => d.save_mock_data pid q.1 q.2) db).configs
      = db.configs := by
  induction ud generalizing db with
  | nil => rfl
  | cons q t ih =>
    rw [List.foldl_cons, ih]
    rfl

/-- `get_max_version` reads only the `configs` table. -/
theorem get_max_version_congr (db1 db2 : Database) (pid : String)
    (h : db1.configs = db2.configs) :
    db1.get_max_version pid = db2.get_max_version pid := by
  unfold Database.get_max_version
  rw [h]

/-- `get_config` reads only the `configs` table. -/
theorem get_config_congr (db1 db2 : Database) (pid : String) (v : Nat)
    (h : db1.configs = db2.configs) :
    db1.get_config pid v = db2.get_config pid v := by
  unfold Database.get_config
  rw [h]

/-- `get_all_mock_data` reads only the `mock_data` table. -/
theorem get_all_mock_data_congr (db1 db2 : Database) (pid : String)
    (h : db1.mock_data = db2.mock_data) :
    db1.get_all_mock_data pid = db2.get_all_mock_data pid := by
  unfold Database.get_all_mock_data
  rw [h]

/-- Association lookup misses a list none of whose keys is the target. -/
theorem lookup_none_of_keys_ne (B : List (String × Json)) (name : String)
    (h : ∀ q ∈ B, q.1 ≠ name) : B.lookup name = none := by
  induction B with
  | nil => rfl
  | cons q t ih =>
    obtain ⟨k, v⟩ := q
    have hq : k ≠ name := h (k, v) (List.mem_cons_self _ _)
    have hbeq : (name == k) = false := beq_eq_false_iff_ne.mpr fun e => hq e.symm
    simp only [List.lookup, hbeq]
    exact ih fun r hr => h r (List.mem_cons_of_mem _ hr)

/-- Appending entries with other keys does not change a lookup. -/
theorem lookup_append_right_miss (A B : List (String × Json)) (name : String)
    (hB : ∀ q ∈ B, q.1 ≠ name) : (A ++ B).lookup name = A.lookup name := by
  induction A with
  | nil =>
    simpa using lookup_none_of_keys_ne B name hB
  | cons q t ih =>
    obtain ⟨k, v⟩ := q
    by_cases hq : (name == k) = true
    · simp only [List.cons_append, List.lookup, hq]
    · simp only [List.cons_append, List.lookup, Bool.of_not_eq_true hq]
      exact ih

/-- A lookup finds an entry appended behind keys that all differ from its
key. -/
theorem lookup_append_of_not_mem_keys (A : List (String × Json)) (n : String) (d : Json)
    (h : ∀ q ∈ A, q.1 ≠ n) : (A ++ [(n, d)]).lookup n = some d := by
  induction A with
  | nil => simp [List.lookup]
  | cons q t ih =>
    obtain ⟨k, v⟩ := q
    have hq : k ≠ n := h (k, v) (List.mem_cons_self _ _)
    have hbeq : (n == k) = false := beq_eq_false_iff_ne.mpr fun e => hq e.symm
    simp only [List.cons_append, List.lookup, hbeq]
    exact ih fun r hr => h r (List.mem_cons_of_mem _ hr)

/-- Deleting the rows of one `(project, resource)` key does not change
lookups of other resource names in the project's dataset view. -/
theorem lookup_filtered_kept (rows : List MockRow) (pid res name : String)
    (h : res ≠ name) :
    (((rows.filter (fun r => ¬(r.project_id = pid ∧ r.resource_name = res))).filter
        (fun r => r.project_id = pid)).map (fun r => (r.resource_name, r.data))).lookup name
      = ((rows.filter (fun r => r.project_id = pid)).map
          (fun r => (r.resource_name, r.data))).lookup name := by
  have hbeq2 : (name == res) = false := beq_eq_false_iff_ne.mpr fun e => h e.symm
  induction rows with
  | nil => rfl
  | cons r t ih =>
    by_cases h1 : r.project_id = pid
    · by_cases h2 : r.resource_name = res
      · simp only [List.filter_cons, List.lookup, h1, h2] at ih ⊢
        simp [hbeq2] at ih ⊢
        exact ih
      · cases hbeq : (name == r.resource_name) with
        | true =>
          simp [List.filter_cons, h1, h2, List.lookup, hbeq]
        | false =>
          simp [List.filter_cons, h1, h2, List.lookup, hbeq] at ih ⊢
          exact ih
    · simp [List.filter_cons, h1] at ih ⊢
      exact ih

/-- After `save_mock_data`, looking the saved resource up in the project's
dataset view returns the saved records. -/
theorem save_mock_data_lookup_self (db : Database) (pid n : String) (d : Json) :
    ((db.save_mock_data pid n d).get_all_mock_data pid).lookup n = some d := by
  simp only [Database.save_mock_data, Database.get_all_mock_data, List.filter_append,
    List.map_append]
  have hB : ((([⟨pid, n, d⟩] : List MockRow)).filter (fun r => r.project_id = pid)).map
      (fun r => (r.resource_name, r.data)) = [(n, d)] := by simp
  rw [hB]
  apply lookup_append_of_not_mem_keys
  intro q hq
  simp only [List.mem_map, List.mem_filter, decide_eq_true_eq] at hq
  obtain ⟨r, ⟨⟨-, hkept⟩, hr2⟩, rfl⟩ := hq
  exact fun hn => hkept ⟨hr2, hn⟩

/-- `save_mock_data` for one resource leaves lookups of every other
resource in the project's dataset view unchanged. -/
theorem save_mock_data_lookup_other (db : Database) (pid res name : String) (d : Json)
    (h : res ≠ name) :
    ((db.save_mock_data pid res d).get_all_mock_data pid).lookup name
      = (db.get_all_mock_data pid).lookup name := by
  simp only [Database.save_mock_data, Database.get_all_mock_data, List.filter_append,
    List.map_append]
  have hB : ((([⟨pid, res, d⟩] : List MockRow)).filter (fun r => r.project_id = pid)).map
      (fun r => (r.resource_name, r.data)) = [(res, d)] := by simp
  rw [hB]
  rw [lookup_append_right_miss _ _ _ (fun q hq => by
    simp only [List.mem_singleton] at hq
    subst hq
    exact h)]
  exact lookup_filtered_kept db.mock_data pid res name h

/-- A run of dataset saves for other resource names preserves a lookup. -/
theorem fold_save_mock_preserve (t : List (String × Json)) (db : Database)
    (pid name : String) (dv : Json) (hmiss : ∀ q ∈ t, q.1 ≠ name)
    (hcur : (db.get_all_mock_data pid).lookup name = some dv) :
    (((t.foldl (fun (d : Database) (q : String × Json) => d.save_mock_data pid q.1 q.2)
        db)).get_all_mock_data pid).lookup name = some dv := by
  induction t generalizing db with
  | nil => exact hcur
  | cons q rest ih =>
    rw [List.foldl_cons]
    refine ih _ (fun r hr => hmiss r (List.mem_cons_of_mem _ hr)) ?_
    rw [save_mock_data_lookup_other db pid q.1 name q.2 (hmiss q (List.mem_cons_self _ _))]
    exact hcur

/-- Saving a run of datasets with pairwise distinct resource names makes
each one retrievable from the project's dataset view. -/
theorem fold_save_mock_lookup (ud : List (String × Json)) (db : Database) (pid : String)
    (hnd : (ud.map Prod.fst).Nodup) :
    ∀ p ∈ ud,
      (((ud.foldl (fun (d : Database) (q : String × Json) => d.save_mock_data pid q.1 q.2)
          db)).get_all_mock_data pid).lookup p.1 = some p.2 := by
  induction ud generalizing db with
  | nil => intro p hp; cases hp
  | cons q rest ih =>
    have hnd2 : (q.1 :: List.map Prod.fst rest).Nodup := by
      simpa only [List.map_cons] using hnd
    have hnd' := List.nodup_cons.mp hnd2
    intro p hp
    rw [List.foldl_cons]
    rcases List.mem_cons.mp hp with hq | hp'
    · subst hq
      refine fold_save_mock_preserve rest _ pid p.1 p.2 ?_
        (save_mock_data_lookup_self db pid p.1 p.2)
      intro r hr he
      exact hnd'.1 (he ▸ List.mem_map_of_mem Prod.fst hr)
    · exact ih _ hnd'.2 p hp'

/-- The store `save_updates` returns has the same `configs` table as a bare
`save_config` of the updated configuration. -/
theorem save_updates_configs (s : AgentState) (db : Database) :
    ((save_updates s db).2.1).configs
      = (db.save_config s.project_id (s.updated_config.getD .null)).configs := by
  simp only [save_updates]
  rw [configs_save_message]
  rcases hud : s.updated_data with _ | ud
  · rfl
  · by_cases hie : ud.isEmpty
    · simp [hie]
    · simp only [hie, if_false]
      exact configs_fold_save_mock ud _ s.project_id

/-- C6 counterexample: with `updated_data` present but empty, the complete
notification carries the prior datasets (here non-empty), not the updated
(empty) ones — refuting the claim's "carries the updated datasets when
present". -/
theorem save_updates_prior_data_cex :
    editEmptyUpdState.updated_data = some [] ∧
    (save_updates editEmptyUpdState {}).2.2 =
      [Notif.complete "p" "Updates successfully applied" (Json.obj [])
        [("Task", Json.arr [Json.obj [("id", Json.num 1)]])]
        ("http://localhost:5174/?id=" ++ "p") ("http://localhost:8000/project/preview/?id=" ++ "p")] ∧
    editEmptyUpdState.mock_data ≠ [] := by
  refine ⟨rfl, rfl, by simp [editEmptyUpdState]⟩

/-- C6 (amended): `save_updates` always persists the updated configuration
as a new version (retrievable at `get_max_version + 1`); it persists the
updated datasets if and only if `updated_data` is truthy (present **and
non-empty** — Python truthiness), otherwise the stored datasets are left
byte-for-byte unchanged; and the complete notification carries the updated
datasets when truthy and the prior in-state datasets otherwise.  The state
itself is returned unchanged. -/
theorem save_updates_spec (s : AgentState) (db : Database) :
    ((save_updates s db).2.1).get_max_version s.project_id
        = db.get_max_version s.project_id + 1 ∧
    ((save_updates s db).2.1).get_config s.project_id (db.get_max_version s.project_id + 1)
        = s.updated_config.getD .null ∧
    (updatedDataTruthy s.updated_data = false →
      ((save_updates s db).2.1).mock_data = db.mock_data) ∧
    (∀ ud, s.updated_data = some ud → (ud.map Prod.fst).Nodup →
      ∀ p ∈ ud, (((save_updates s db).2.1).get_all_mock_data s.project_id).lookup p.1
        = some p.2) ∧
    (save_updates s db).2.2 =
      [Notif.complete s.project_id "Updates successfully applied"
        (s.updated_config.getD .null)
        (if updatedDataTruthy s.updated_data then s.updated_data.getD [] else s.mock_data)
        ("http://localhost:5174/?id=" ++ s.project_id)
        ("http://localhost:8000/project/preview/?id=" ++ s.project_id)] ∧
    (save_updates s db).1 = s := by
  refine ⟨?_, ?_, ?_, ?_, ?_, rfl⟩
  · rw [get_max_version_congr _ _ s.project_id (save_updates_configs s db)]
    exact get_max_version_save db s.project_id _
  · rw [get_config_congr _ _ s.project_id _ (save_updates_configs s db)]
    exact get_config_save_same db s.project_id _
  · intro hfalse
    simp only [save_updates]
    rw [mock_data_save_message]
    rcases hud : s.updated_data with _ | ud
    · rfl
    · have hie : ud.isEmpty = true := by
        rw [hud] at hfalse
        simpa [updatedDataTruthy] using hfalse
      simp only [hie, if_true]
      rfl
  · intro ud hud hnd p hp
    have hie : ud.isEmpty = false := by
      cases ud
      · cases hp
      · rfl
    simp only [save_updates, hud, hie, if_false]
    rw [get_all_mock_data_congr _ _ s.project_id (mock_data_save_message _ _ _ _ _)]
    exact fold_save_mock_lookup ud _ s.project_id hnd p hp
  · rcases hud : s.updated_data with _ | ud
    · simp [save_updates, hud, updatedDataTruthy]
    · by_cases hie : ud.isEmpty <;>
        simp [save_updates, hud, updatedDataTruthy, hie]

/-- Witness for `save_updates_spec`: a concrete `save_updates` on a fresh
store persists version 1 and makes the updated dataset retrievable. -/
theorem save_updates_spec_witness :
    ((save_updates editSavedState {}).2.1).get_max_version "p" = 1 ∧
    (((save_updates editSavedState {}).2.1).get_all_mock_data "p").lookup "Task"
      = some (.arr []) := by
  have h := save_updates_spec editSavedState {}
  exact ⟨h.1, h.2.2.2.1 [("Task", Json.arr [])] rfl (by simp) ("Task", Json.arr [])
    (by simp)⟩

/-- A present-or-defaulted string key reads back as some string. -/
theorem strIfPresent_getD (fs : List (String × Json)) (k d : String)
    (h : strIfPresent fs k = true) :
    ∃ s, (jlookup fs k).getD (.str d) = .str s := by
  unfold strIfPresent at h
  rcases hj : jlookup fs k with _ | v
  · exact ⟨d, by simp [hj]⟩
  · rw [hj] at h
    cases v with
    | str s => exact ⟨s, by simp [hj]⟩
    | null => cases h
    | bool b => cases h
    | num n => cases h
    | arr l => cases h
    | obj l => cases h

/-- The accumulator loop of `List.mapM` over `Except` succeeds when every
element does. -/
theorem mapM_loop_ok {α β : Type} (g : α → Except String β) (l : List α)
    (h : ∀ x ∈ l, ∃ v, g x = .ok v) :
    ∀ acc : List β, ∃ vs, List.mapM.loop g l acc = .ok vs := by
  induction l with
  | nil => exact fun acc => ⟨acc.reverse, rfl⟩
  | cons a t ih =>
    intro acc
    obtain ⟨v, hv⟩ := h a (List.mem_cons_self _ _)
    obtain ⟨vs, hvs⟩ := ih (fun x hx => h x (List.mem_cons_of_mem _ hx)) (v :: acc)
    refine ⟨vs, ?_⟩
    show (g a >>= fun b => List.mapM.loop g t (b :: acc)) = .ok vs
    rw [hv]
    exact hvs

/-- A `mapM` over `Except` succeeds when every element does. -/
theorem mapM_ok {α β : Type} (g : α → Except String β) (l : List α)
    (h : ∀ x ∈ l, ∃ v, g x = .ok v) : ∃ vs, l.mapM g = .ok vs :=
  mapM_loop_ok g l h []

/-- A `foldlM` over `Except` succeeds when every step does. -/
theorem foldlM_ok {α β : Type} (g : β → α → Except String β) (l : List α)
    (h : ∀ acc x, x ∈ l → ∃ v, g acc x = .ok v) :
    ∀ acc, ∃ v, l.foldlM g acc = .ok v := by
  induction l with
  | nil => exact fun acc => ⟨acc, rfl⟩
  | cons a t ih =>
    intro acc
    obtain ⟨v, hv⟩ := h acc a (List.mem_cons_self _ _)
    obtain ⟨w, hw⟩ := ih (fun acc x hx => h acc x (List.mem_cons_of_mem _ hx)) v
    refine ⟨w, ?_⟩
    show (g acc a >>= fun b => List.foldlM g b t) = .ok w
    rw [hv]
    exact hw

/-- `columnOfField` never raises on a dict field. -/
theorem columnOfField_ok (fs : List (String × Json)) :
    ∃ v, columnOfField (.obj fs) = .ok v :=
  ⟨_, rfl⟩

/-- `formItemOfField` never raises on a dict field whose name, if present,
is a string. -/
theorem formItemOfField_ok (fs : List (String × Json))
    (h : strIfPresent fs "name" = true) :
    ∃ v, formItemOfField (.obj fs) = .ok v := by
  obtain ⟨s, hs⟩ := strIfPresent_getD fs "name" "Field" h
  have hred : formItemOfField (.obj fs)
      = Except.bind (pyStr? ((jlookup fs "name").getD (.str "Field")))
          (fun ls => Except.ok (.obj [("name", (jlookup fs "name").getD (.str "field")),
                                      ("label", .str (pyTitle ls)),
                                      ("type", (jlookup fs "type").getD (.str "string"))])) := rfl
  rw [hred, hs]
  exact ⟨_, rfl⟩

/-- Binding a success just applies the continuation. -/
theorem ok_bind {α β : Type} (v : α) (f : α → Except String β) :
    (Except.ok v >>= f) = f v := rfl

/-- Success of an `Except` computation, as a Bool and as a witness. -/
theorem isOk_iff_exists {α : Type} (x : Except String α) :
    x.isOk = true ↔ ∃ v, x = .ok v := by
  cases x <;> simp [Except.isOk, Except.toBool]

/-- `columnOfField` never raises on a well-formed field. -/
theorem columnOfField_ok' (x : Json) (h : wfField x = true) :
    ∃ v, columnOfField x = .ok v := by
  cases x with
  | obj fs => exact columnOfField_ok fs
  | null => simp [wfField] at h
  | bool b => simp [wfField] at h
  | num n => simp [wfField] at h
  | str s => simp [wfField] at h
  | arr l => simp [wfField] at h

/-- `formItemOfField` never raises on a well-formed field. -/
theorem formItemOfField_ok' (x : Json) (h : wfField x = true) :
    ∃ v, formItemOfField x = .ok v := by
  cases x with
  | obj fs => exact formItemOfField_ok fs (by simpa [wfField] using h)
  | null => simp [wfField] at h
  | bool b => simp [wfField] at h
  | num n => simp [wfField] at h
  | str s => simp [wfField] at h
  | arr l => simp [wfField] at h

/-- `entityComponents` never raises on a well-formed entity. -/
theorem entityComponents_ok (e : Json) (name : String) (h : wfEntity e = true) :
    ∃ v, entityComponents e name = .ok v := by
  cases e with
  | obj fs =>
    unfold wfEntity at h
    rw [Bool.and_eq_true] at h
    obtain ⟨hname, hfields⟩ := h
    rw [← isOk_iff_exists]
    rcases hj : jlookup fs "fields" with _ | v
    · simp [entityComponents, pyGet, hj, Except.isOk, Except.toBool, pure, Except.pure, ok_bind]
    · rw [hj] at hfields
      cases v with
      | arr l =>
        cases l with
        | nil => simp [entityComponents, pyGet, hj, Except.isOk, Except.toBool, pure, Except.pure, ok_bind]
        | cons f t =>
          have hall : ∀ x ∈ f :: t, wfField x = true :=
            List.all_eq_true.mp (by simpa using hfields)
          obtain ⟨cols, hcols⟩ := mapM_ok columnOfField ((f :: t).take 4)
            (fun x hx => columnOfField_ok' x (hall x (List.mem_of_mem_take hx)))
          obtain ⟨items, hitems⟩ := mapM_ok formItemOfField (f :: t)
            (fun x hx => formItemOfField_ok' x (hall x hx))
          simp only [List.mapM, List.take_succ_cons] at hcols hitems
          simp [entityComponents, pyGet, hj, hcols, hitems, Except.isOk, Except.toBool, pure, Except.pure, ok_bind]
      | null => simp [entityComponents, pyGet, hj, Except.isOk, Except.toBool, pure, Except.pure, ok_bind]
      | bool b => simp [entityComponents, pyGet, hj, Except.isOk, Except.toBool, pure, Except.pure, ok_bind]
      | num n => simp [entityComponents, pyGet, hj, Except.isOk, Except.toBool, pure, Except.pure, ok_bind]
      | str s => simp [entityComponents, pyGet, hj, Except.isOk, Except.toBool, pure, Except.pure, ok_bind]
      | obj l => simp [entityComponents, pyGet, hj, Except.isOk, Except.toBool, pure, Except.pure, ok_bind]
  | null => simp [wfEntity] at h
  | bool b => simp [wfEntity] at h
  | num n => simp [wfEntity] at h
  | str s => simp [wfEntity] at h
  | arr l => simp [wfEntity] at h

/-- The entity loop of the builder never raises on well-formed
descriptors. -/
theorem pageEntityComponents_ok (entities : List Json) (pfs : List (String × Json))
    (hE : entities.all wfEntity = true) (hp : wfPage (.obj pfs) = true) :
    ∃ v, pageEntityComponents entities (.obj pfs) = .ok v := by
  have hp' := hp
  unfold wfPage at hp'
  simp only [Bool.and_eq_true] at hp'
  obtain ⟨⟨hpath, htitle⟩, hpurpose⟩ := hp'
  obtain ⟨ts, hts⟩ := strIfPresent_getD pfs "title" "" htitle
  obtain ⟨ps, hps⟩ := strIfPresent_getD pfs "purpose" "" hpurpose
  apply foldlM_ok
  intro acc entity hent
  have hwf : wfEntity entity = true := List.all_eq_true.mp hE entity hent
  cases entity with
  | obj efs =>
    have hname : strIfPresent efs "name" = true := by
      unfold wfEntity at hwf
      simp only [Bool.and_eq_true] at hwf
      exact hwf.1
    obtain ⟨ns, hns⟩ := strIfPresent_getD efs "name" "" hname
    obtain ⟨ec, hec⟩ := entityComponents_ok (.obj efs) ns hwf
    cases hc1 : strContains ts.toLower ns.toLower with
    | true =>
      exact ⟨acc ++ ec, by
        simp [pyGet, pyStr?, hns, hts, hc1, hec, ok_bind]⟩
    | false =>
      cases hc2 : strContains ps.toLower ns.toLower with
      | true =>
        exact ⟨acc ++ ec, by
          simp [pyGet, pyStr?, hns, hts, hps, hc1, hc2, hec, ok_bind]⟩
      | false =>
        exact ⟨acc, by
          simp [pyGet, pyStr?, hns, hts, hps, hc1, hc2, ok_bind, pure, Except.pure]⟩
  | null => simp [wfEntity] at hwf
  | bool b => simp [wfEntity] at hwf
  | num n => simp [wfEntity] at hwf
  | str s => simp [wfEntity] at hwf
  | arr l => simp [wfEntity] at hwf

/-- `processPage` never raises on well-formed descriptors. -/
theorem processPage_ok (entities : List Json) (page : Json)
    (hE : entities.all wfEntity = true) (hp : wfPage page = true) :
    ∃ v, processPage entities page = .ok v := by
  cases page with
  | obj pfs =>
    have hp' := hp
    unfold wfPage at hp'
    simp only [Bool.and_eq_true] at hp'
    obtain ⟨⟨hpath, htitle⟩, hpurpose⟩ := hp'
    obtain ⟨pa, hpa⟩ := strIfPresent_getD pfs "path" "" hpath
    obtain ⟨t0, ht0⟩ := strIfPresent_getD pfs "title" "" htitle
    obtain ⟨tv, htv⟩ := strIfPresent_getD pfs "title" "Page" htitle
    obtain ⟨ec, hec⟩ := pageEntityComponents_ok entities pfs hE hp
    rw [← isOk_iff_exists]
    by_cases hstr : pyStrip pa '/' = ""
    · by_cases hpid : (t0.toLower.replace " " "-") = "" <;>
        simp [processPage, pyGet, pyStr?, hpa, ht0, htv, hstr, hpid, hec,
          Except.isOk, Except.toBool, pure, Except.pure, ok_bind]
    · simp [processPage, pyGet, pyStr?, hpa, ht0, htv, hstr, hec,
        Except.isOk, Except.toBool, pure, Except.pure, ok_bind]
  | null => simp [wfPage] at hp
  | bool b => simp [wfPage] at hp
  | num n => simp [wfPage] at hp
  | str s => simp [wfPage] at hp
  | arr l => simp [wfPage] at hp

/-- `create_default_page_config` never raises on well-formed descriptors. -/
theorem create_default_page_config_ok (entities pages : List Json)
    (h : wellFormedDescriptors entities pages = true) :
    ∃ v, create_default_page_config entities pages = .ok v := by
  unfold wellFormedDescriptors at h
  rw [Bool.and_eq_true] at h
  obtain ⟨hE, hP⟩ := h
  have hPagesEff : (if pages.isEmpty then default_pages else pages).all wfPage = true := by
    by_cases hie : pages.isEmpty
    · simp only [hie, if_true]
      rfl
    · simpa [hie] using hP
  obtain ⟨m, hm⟩ := foldlM_ok
    (fun acc page =>
      processPage entities page >>= fun r =>
        match r with
        | none => pure acc
        | some (pid, cfg) => pure (upsert acc pid cfg))
    (if pages.isEmpty then default_pages else pages)
    (fun acc page hpage => by
      obtain ⟨r, hr⟩ := processPage_ok entities page hE
        (List.all_eq_true.mp hPagesEff page hpage)
      cases r with
      | none =>
        refine ⟨acc, ?_⟩
        simp only [hr, ok_bind]
        rfl
      | some pc =>
        refine ⟨upsert acc pc.1 pc.2, ?_⟩
        simp only [hr, ok_bind]
        rfl)
    []
  have hred : create_default_page_config entities pages
      = ((if pages.isEmpty then default_pages else pages).foldlM
          (fun acc page =>
            processPage entities page >>= fun r =>
              match r with
              | none => pure acc
              | some (pid, cfg) => pure (upsert acc pid cfg)) []) >>=
        fun pagesMap => pure (.obj [("pages", .obj pagesMap)]) := rfl
  refine ⟨.obj [("pages", .obj m)], ?_⟩
  rw [hred, hm, ok_bind]
  rfl

/-- C7 counterexample: `generate_page_configs` **can** raise.  With an
unparsable model output it falls back to `create_default_page_config`, and
a page descriptor whose `"path"` value is a number makes the builder call
`.strip("/")` on an `int` — `AttributeError`, which escapes the capability
(the `except Exception` handler calls the raising builder again). -/
theorem generate_page_configs_can_raise :
    generate_page_configs [] [Json.obj [("path", Json.num 5)]] .unparsable
      = .error "AttributeError: str method" := rfl

/-- C7 (amended): every generation capability except page-config generation
returns, for every input, a deterministic default instead of raising when
the external call errors or its output is unparsable (and returns the
parsed content unchanged otherwise).  `generate_page_configs` does the same
**provided the entity and page descriptors in state are well-formed**; its
local fallback builder can raise `AttributeError`/`TypeError` on malformed
descriptors (see `generate_page_configs_can_raise`), which then surfaces as
a step-level error. -/
theorem capability_failures_masked (u uc et m : String)
    (j cc mock mdj updc : Json) (entities pages : List Json) :
    (analyze_intent u (.apiError m)
        = .obj [("app_name", .str "Task App"), ("use_case_summary", .str u)] ∧
     analyze_intent u .unparsable
        = .obj [("app_name", .str "Task App"), ("use_case_summary", .str u)] ∧
     analyze_intent u (.parsed j) = j) ∧
    (generate_use_cases uc (.apiError m) = default_use_cases ∧
     generate_use_cases uc .unparsable = default_use_cases ∧
     generate_use_cases uc (.parsed j) = j) ∧
    (generate_mock_data entities (.apiError m) = .obj [("Task", .arr [])] ∧
     generate_mock_data entities .unparsable = .obj [("Task", .arr [])] ∧
     generate_mock_data entities (.parsed j) = j) ∧
    (detect_edit_intent u (.apiError m)
        = .obj [("edit_target", .str "component"), ("target_page", .str "Dashboard"),
                ("target_component", .str "main"), ("operation", .str "update"),
                ("modification_details", .obj [("description", .str u)])] ∧
     detect_edit_intent u .unparsable = detect_edit_intent u (.apiError m) ∧
     detect_edit_intent u (.parsed j) = j) ∧
    (apply_edit_patch cc et mdj (.apiError m) = cc ∧
     apply_edit_patch cc et mdj .unparsable = cc ∧
     apply_edit_patch cc et mdj (.parsed j) = j) ∧
    (regenerate_mock_data updc mock mdj (.apiError m) = mock ∧
     regenerate_mock_data updc mock mdj .unparsable = mock ∧
     regenerate_mock_data updc mock mdj (.parsed j) = j) ∧
    (wellFormedDescriptors entities pages = true →
      (∀ api, ∃ out, generate_page_configs entities pages api = .ok out) ∧
      generate_page_configs entities pages (.apiError m)
        = create_default_page_config entities pages ∧
      generate_page_configs entities pages .unparsable
        = create_default_page_config entities pages) := by
  refine ⟨⟨rfl, rfl, rfl⟩, ⟨rfl, rfl, rfl⟩, ⟨rfl, rfl, rfl⟩, ⟨rfl, rfl, rfl⟩,
          ⟨rfl, rfl, rfl⟩, ⟨rfl, rfl, rfl⟩, fun h => ⟨?_, rfl, rfl⟩⟩
  intro api
  cases api with
  | apiError msg => exact create_default_page_config_ok entities pages h
  | unparsable => exact create_default_page_config_ok entities pages h
  | parsed pj =>
    cases pj with
    | obj fs =>
      by_cases hacc : pagesAccepted (jlookup fs "pages") = true
      · exact ⟨.obj fs, by simp [generate_page_configs, hacc]⟩
      · have hcd := create_default_page_config_ok entities pages h
        simpa [generate_page_configs, hacc] using hcd
    | null => exact create_default_page_config_ok entities pages h
    | bool b => exact create_default_page_config_ok entities pages h
    | num n => exact create_default_page_config_ok entities pages h
    | str s => exact create_default_page_config_ok entities pages h
    | arr l => exact create_default_page_config_ok entities pages h

/-- Witness for `capability_failures_masked`: intent analysis masks an
unparsable output with its fixed default, and page-config generation with
empty (well-formed) descriptors returns a configuration instead of
raising. -/
theorem capability_failures_masked_witness :
    analyze_intent "track workouts" .unparsable
      = .obj [("app_name", .str "Task App"), ("use_case_summary", .str "track workouts")] ∧
    ∃ out, generate_page_configs [] [] .unparsable = .ok out := by
  have h := capability_failures_masked "track workouts" "" "" ""
    .null .null .null .null .null [] []
  exact ⟨h.1.2.1, (h.2.2.2.2.2.2 rfl).1 .unparsable⟩
